import Mathlib

/-!
Verification development for the PDF-Lib-Converter repository.

The definitions below are a shallow embedding of the PostScript parser
(`src/src/core/postscript_parser.cpp`) and the PDF generator
(`src/src/core/pdf_generator.cpp`).  C++ `double` values are modelled as
exact rationals (`ℚ`); byte strings are modelled as `List Char` where each
`Char` stands for one byte.
-/

namespace PDFLib

/-! ## Decimal rendering and parsing of natural numbers

`renderNat` models the bytes produced by `operator<<` on an integer value
(plain decimal, no padding).  `parseNat` reads such bytes back.
-/

/-- One decimal digit as a character, `0 ↦ '0'`, …, `9 ↦ '9'`. -/
def digitChar (d : Nat) : Char := Char.ofNat (48 + d)

/-- Numeric value of a decimal digit character. -/
def charVal (c : Char) : Nat := c.toNat - 48

/-- Recogniser for ASCII decimal digit bytes. -/
def isDigitChar (c : Char) : Bool := decide (48 ≤ c.toNat ∧ c.toNat ≤ 57)

/-- Digit-by-digit decimal rendering helper, most significant digit first;
`fuel` only bounds the recursion, and any `fuel ≥ n` yields the decimal
digits of `n`. -/
def renderNatAux : Nat → Nat → List Char
  | _, 0 => []
  | 0, _ + 1 => []
  | fuel + 1, m + 1 =>
      renderNatAux fuel ((m + 1) / 10) ++ [digitChar ((m + 1) % 10)]

/-- Decimal rendering of a natural number, as emitted by `operator<<`. -/
def renderNat (n : Nat) : List Char :=
  if n = 0 then ['0'] else renderNatAux n n

/-- Big-endian decimal parsing of digit bytes. -/
def parseNat (cs : List Char) : Nat :=
  cs.foldl (fun acc c => acc * 10 + charVal c) 0

theorem charVal_digitChar {d : Nat} (hd : d < 10) : charVal (digitChar d) = d := by
  interval_cases d <;> decide

theorem isDigitChar_digitChar {d : Nat} (hd : d < 10) : isDigitChar (digitChar d) = true := by
  interval_cases d <;> decide

theorem parseNat_append_digit (xs : List Char) (c : Char) :
    parseNat (xs ++ [c]) = parseNat xs * 10 + charVal c := by
  simp [parseNat, List.foldl_append]

theorem parseNat_renderNatAux :
    ∀ fuel n, n ≤ fuel → parseNat (renderNatAux fuel n) = n := by
  intro fuel
  induction fuel with
  | zero =>
      intro n h
      interval_cases n
      simp [renderNatAux, parseNat]
  | succ fuel ih =>
      intro n h
      cases n with
      | zero => simp [renderNatAux, parseNat]
      | succ m =>
          have hdiv : (m + 1) / 10 < m + 1 := Nat.div_lt_self (Nat.succ_pos m) (by norm_num)
          rw [renderNatAux, parseNat_append_digit,
            charVal_digitChar (Nat.mod_lt _ (by norm_num)), ih ((m + 1) / 10) (by omega)]
          omega

theorem parseNat_renderNat (n : Nat) : parseNat (renderNat n) = n := by
  by_cases h : n = 0
  · subst h; simp [renderNat, parseNat, charVal]
  · rw [renderNat, if_neg h, parseNat_renderNatAux n n le_rfl]

theorem renderNatAux_all_digits :
    ∀ fuel n, ∀ c ∈ renderNatAux fuel n, isDigitChar c = true := by
  intro fuel
  induction fuel with
  | zero =>
      intro n c hc
      cases n <;> simp [renderNatAux] at hc
  | succ fuel ih =>
      intro n c hc
      cases n with
      | zero => simp [renderNatAux] at hc
      | succ m =>
          rw [renderNatAux] at hc
          rcases List.mem_append.mp hc with h1 | h1
          · exact ih _ c h1
          · simp only [List.mem_singleton] at h1
            subst h1
            exact isDigitChar_digitChar (Nat.mod_lt _ (by norm_num))

theorem renderNat_all_digits (n : Nat) : ∀ c ∈ renderNat n, isDigitChar c = true := by
  intro c hc
  by_cases h : n = 0
  · subst h; simp [renderNat] at hc; subst hc; decide
  · rw [renderNat, if_neg h] at hc
    exact renderNatAux_all_digits n n c hc

theorem renderNat_ne_nil (n : Nat) : renderNat n ≠ [] := by
  by_cases h : n = 0
  · subst h; simp [renderNat]
  · rw [renderNat, if_neg h]
    cases n with
    | zero => exact absurd rfl h
    | succ m => simp [renderNatAux]

theorem renderNatAux_length_le :
    ∀ fuel n k, n < 10 ^ k → (renderNatAux fuel n).length ≤ k := by
  intro fuel
  induction fuel with
  | zero =>
      intro n k _
      cases n <;> simp [renderNatAux]
  | succ fuel ih =>
      intro n k hk
      cases n with
      | zero => simp [renderNatAux]
      | succ m =>
          cases k with
          | zero => simp at hk
          | succ j =>
              have hdiv : (m + 1) / 10 < 10 ^ j := by
                rw [Nat.div_lt_iff_lt_mul (by norm_num : (0:Nat) < 10)]
                calc m + 1 < 10 ^ (j + 1) := hk
                _ = 10 ^ j * 10 := by ring
              rw [renderNatAux]
              simp only [List.length_append, List.length_singleton]
              have := ih ((m + 1) / 10) j hdiv
              omega

theorem renderNat_length_le {n k : Nat} (h : n < 10 ^ k) (hk : 1 ≤ k) :
    (renderNat n).length ≤ k := by
  by_cases h0 : n = 0
  · subst h0; simpa [renderNat] using hk
  · rw [renderNat, if_neg h0]
    exact renderNatAux_length_le n n k h

/-! ## List-of-bytes parsing helpers -/

/-- Remove an expected literal byte sequence from the front of `s`. -/
def stripPre : List Char → List Char → Option (List Char)
  | [], s => some s
  | _ :: _, [] => none
  | a :: p, b :: s => if a = b then stripPre p s else none

theorem stripPre_append (p s : List Char) : stripPre p (p ++ s) = some s := by
  induction p with
  | nil => rfl
  | cons a p ih => simp [stripPre, ih]

theorem stripPre_some {p s r : List Char} (h : stripPre p s = some r) : s = p ++ r := by
  induction p generalizing s with
  | nil => simp only [stripPre, Option.some.injEq] at h; simp [h]
  | cons a p ih =>
      cases s with
      | nil => simp [stripPre] at h
      | cons b s =>
          by_cases hab : a = b
          · subst hab
            simp only [stripPre, if_pos rfl] at h
            simpa using ih h
          · simp [stripPre, hab] at h

theorem takeWhile_append_of_all {p : Char → Bool} {x : List Char} {a : Char} (rest : List Char)
    (hxs : ∀ c ∈ x, p c = true) (ha : p a = false) :
    (x ++ a :: rest).takeWhile p = x ∧ (x ++ a :: rest).dropWhile p = a :: rest := by
  induction x with
  | nil => simp [List.takeWhile, List.dropWhile, ha]
  | cons x xs ih =>
      have hx : p x = true := hxs x (by simp)
      have h' : ∀ c ∈ xs, p c = true := fun c hc => hxs c (by simp [hc])
      obtain ⟨h1, h2⟩ := ih h'
      simp [List.takeWhile, List.dropWhile, hx, h1, h2]

/-! ## String escaping in content streams (pdf_generator.cpp, `EscapeString`) -/

/-- Embedding of `PDFGenerator::Impl::EscapeString`: prepend a backslash to
each of `(`, `)` and `\`. -/
def escapeString : List Char → List Char
  | [] => []
  | c :: cs =>
      if c = '(' ∨ c = ')' ∨ c = '\\' then '\\' :: c :: escapeString cs
      else c :: escapeString cs

/-- Reverse of the escape rules: a backslash quotes the byte that follows it. -/
def unescapeString : List Char → List Char
  | [] => []
  | [c] => [c]
  | c :: d :: cs =>
      if c = '\\' then d :: unescapeString cs
      else c :: unescapeString (d :: cs)

theorem escapeString_cons_ne_nil (c : Char) (cs : List Char) :
    escapeString (c :: cs) ≠ [] := by
  by_cases h : c = '(' ∨ c = ')' ∨ c = '\\' <;> simp [escapeString, h]

theorem unescape_escape (s : List Char) : unescapeString (escapeString s) = s := by
  induction s with
  | nil => rfl
  | cons c cs ih =>
      by_cases h : c = '(' ∨ c = ')' ∨ c = '\\'
      · simp [escapeString, if_pos h, unescapeString, ih]
      · have hc : c ≠ '\\' := fun hc => h (Or.inr (Or.inr hc))
        simp only [escapeString, if_neg h]
        cases hE : escapeString cs with
        | nil =>
            cases cs with
            | nil => simp [unescapeString]
            | cons d ds => exact absurd hE (escapeString_cons_ne_nil d ds)
        | cons e es =>
            rw [← hE]
            have : unescapeString (c :: escapeString cs) =
                c :: unescapeString (escapeString cs) := by
              rw [hE]; simp [unescapeString, hc]
            rw [this, ih]

/-! ## Page model (postscript_parser.h) -/

/-- Path element kinds, from `PathElement::Type`. -/
inductive PathElemType where
  | moveTo
  | lineTo
  | curveTo
  | closePath
deriving DecidableEq, Repr

/-- Embedding of `struct PathElement` (a kind plus a flat list of coordinates). -/
structure PathElement where
  type : PathElemType
  points : List ℚ
deriving DecidableEq, Repr

/-- Embedding of `struct TextElement`. -/
structure TextElement where
  text : List Char
  x : ℚ
  y : ℚ
  font_name : String
  font_size : ℚ
  color_r : ℚ
  color_g : ℚ
  color_b : ℚ
deriving DecidableEq, Repr

/-- Embedding of `struct GraphicsState` (the fields the recognized subset touches). -/
structure GraphicsState where
  current_x : ℚ := 0
  current_y : ℚ := 0
  line_width : ℚ := 1
  color_r : ℚ := 0
  color_g : ℚ := 0
  color_b : ℚ := 0
  font_name : String := "Helvetica"
  font_size : ℚ := 12
deriving DecidableEq, Repr

/-- Embedding of `PostScriptParser::Impl::Page`; the defaults are the A4
constants from the source. -/
structure Page where
  width : ℚ := 595276 / 1000
  height : ℚ := 841890 / 1000
  paths : List PathElement := []
  text_elements : List TextElement := []
deriving DecidableEq, Repr

/-! ## PostScript parser state (postscript_parser.cpp, `PostScriptParser::Impl`) -/

/-- Mutable fields of `PostScriptParser::Impl` that the recognized operator
subset reads or writes. -/
structure ParserState where
  pages : List Page := []
  bbox_x1 : ℚ := 0
  bbox_y1 : ℚ := 0
  bbox_x2 : ℚ := 595276 / 1000
  bbox_y2 : ℚ := 841890 / 1000
  transform_scale : ℚ := 1
  transform_offset_x : ℚ := 0
  transform_offset_y : ℚ := 0
  transform_pdf_height : ℚ := 842
  cur : GraphicsState := {}
  state_stack : List GraphicsState := []
  current_path : List PathElement := []
deriving DecidableEq, Repr

/-- Embedding of `SetupCoordinateTransform`: uniform scale and centering
offsets onto a fixed 595 × 842 point page. -/
def setupCoordinateTransform (s : ParserState) : ParserState :=
  let ps_width := s.bbox_x2 - s.bbox_x1
  let ps_height := s.bbox_y2 - s.bbox_y1
  let pdf_width : ℚ := 595
  let pdf_height : ℚ := 842
  let scale_x := pdf_width / ps_width
  let scale_y := pdf_height / ps_height
  let scale := min scale_x scale_y
  let scaled_width := ps_width * scale
  let scaled_height := ps_height * scale
  let offset_x := (pdf_width - scaled_width) / 2
  let offset_y := (pdf_height - scaled_height) / 2
  { s with
    transform_scale := scale
    transform_offset_x := offset_x
    transform_offset_y := offset_y
    transform_pdf_height := pdf_height }

/-- Embedding of `TransformCoordinates` (PS point to PDF point, with Y flip). -/
def transformCoordinates (s : ParserState) (x y : ℚ) : ℚ × ℚ :=
  (x * s.transform_scale + s.transform_offset_x,
   s.transform_pdf_height - (y * s.transform_scale + s.transform_offset_y))

/-- One PostScript token after `Tokenize`: a number (one `IsNumeric` accepts),
a parenthesised literal string (stored without its parentheses), or any other
word. -/
inductive PSTok where
  | num (x : ℚ)
  | str (s : List Char)
  | word (w : String)
deriving DecidableEq, Repr

/-- `tokens[i-k]` when it is a numeric token and `k ≤ i` (the C++ guards
`i >= k && IsNumeric(tokens[i-k])`). -/
def prevNum (tokens : List PSTok) (i k : Nat) : Option ℚ :=
  if k ≤ i then
    match tokens.get? (i - k) with
    | some (PSTok.num x) => some x
    | _ => none
  else none

/-- `tokens[i-1]` when it is a literal string token (the C++ guards
`i > 0` plus the front `(` / back `)` check). -/
def prevStr (tokens : List PSTok) (i : Nat) : Option (List Char) :=
  if 1 ≤ i then
    match tokens.get? (i - 1) with
    | some (PSTok.str s) => some s
    | _ => none
  else none

/-- Append path elements to the `paths` of the last page, as
`pages_.back().paths.push_back` does in a loop. -/
def appendToLastPaths (pages : List Page) (elems : List PathElement) : List Page :=
  match pages with
  | [] => []
  | [p] => [{ p with paths := p.paths ++ elems }]
  | p :: rest => p :: appendToLastPaths rest elems

/-- Append a text element to the last page. -/
def appendToLastText (pages : List Page) (t : TextElement) : List Page :=
  match pages with
  | [] => []
  | [p] => [{ p with text_elements := p.text_elements ++ [t] }]
  | p :: rest => p :: appendToLastText rest t

/-- Embedding of the loop body of `ParseLine`: the dispatch on `tokens[i]`. -/
def tokStep (tokens : List PSTok) (i : Nat) (s : ParserState) : ParserState :=
  match tokens.get? i with
  | none => s
  | some (PSTok.num _) => s
  | some (PSTok.str _) => s
  | some (PSTok.word w) =>
    if w = "gsave" ∨ w = "q" then
      { s with state_stack := s.cur :: s.state_stack }
    else if w = "grestore" ∨ w = "Q" then
      match s.state_stack with
      | [] => s
      | g :: rest => { s with cur := g, state_stack := rest }
    else if w = "setlinewidth" ∨ w = "w" then
      match prevNum tokens i 1 with
      | some lw => { s with cur := { s.cur with line_width := lw } }
      | none => s
    else if w = "setrgbcolor" ∨ w = "rg" then
      match prevNum tokens i 3, prevNum tokens i 2, prevNum tokens i 1 with
      | some r, some g, some b =>
          { s with cur := { s.cur with color_r := r, color_g := g, color_b := b } }
      | _, _, _ => s
    else if w = "moveto" ∨ w = "m" then
      match prevNum tokens i 2, prevNum tokens i 1 with
      | some x, some y =>
          let p := transformCoordinates s x y
          { s with
            cur := { s.cur with current_x := p.1, current_y := p.2 }
            current_path := s.current_path ++ [⟨PathElemType.moveTo, [p.1, p.2]⟩] }
      | _, _ => s
    else if w = "lineto" ∨ w = "l" then
      match prevNum tokens i 2, prevNum tokens i 1 with
      | some x, some y =>
          let p := transformCoordinates s x y
          { s with
            cur := { s.cur with current_x := p.1, current_y := p.2 }
            current_path := s.current_path ++ [⟨PathElemType.lineTo, [p.1, p.2]⟩] }
      | _, _ => s
    else if w = "curveto" ∨ w = "c" then
      match prevNum tokens i 6, prevNum tokens i 5, prevNum tokens i 4,
            prevNum tokens i 3, prevNum tokens i 2, prevNum tokens i 1 with
      | some x1, some y1, some x2, some y2, some x3, some y3 =>
          let p1 := transformCoordinates s x1 y1
          let p2 := transformCoordinates s x2 y2
          let p3 := transformCoordinates s x3 y3
          { s with
            cur := { s.cur with current_x := p3.1, current_y := p3.2 }
            current_path := s.current_path ++
              [⟨PathElemType.curveTo, [p1.1, p1.2, p2.1, p2.2, p3.1, p3.2]⟩] }
      | _, _, _, _, _, _ => s
    else if w = "closepath" ∨ w = "h" then
      { s with current_path := s.current_path ++ [⟨PathElemType.closePath, []⟩] }
    else if w = "stroke" ∨ w = "s" then
      if s.current_path ≠ [] ∧ s.pages ≠ [] then
        { s with
          pages := appendToLastPaths s.pages s.current_path
          current_path := [] }
      else s
    else if w = "fill" ∨ w = "f" ∨ w = "F" then
      let s1 :=
        if s.pages ≠ [] ∧ s.current_path ≠ [] then
          { s with pages := appendToLastPaths s.pages s.current_path }
        else s
      { s1 with current_path := [] }
    else if w = "show" ∨ w = "Tj" then
      match prevStr tokens i with
      | some txt =>
          let p := transformCoordinates s s.cur.current_x s.cur.current_y
          let t : TextElement :=
            { text := txt, x := p.1, y := p.2
              font_name := s.cur.font_name, font_size := s.cur.font_size
              color_r := s.cur.color_r, color_g := s.cur.color_g, color_b := s.cur.color_b }
          if s.pages ≠ [] then { s with pages := appendToLastText s.pages t } else s
      | none => s
    else if w = "showpage" then
      { s with pages := s.pages ++ [{}] }
    else s

/-- Embedding of `ParseLine` on an already-tokenized non-comment line: the
token-index loop. -/
def runLineTokens (tokens : List PSTok) (s : ParserState) : ParserState :=
  (List.range tokens.length).foldl (fun st i => tokStep tokens i st) s

/-- Embedding of `ParseContent`, starting after the DSC scan: the bounding
box is already in the state, `SetupCoordinateTransform` runs, the implicit
first page is created, and every non-comment line is interpreted in order.
Comment and blank lines contribute no tokens and are dropped by `ParseLine`,
so the input is the list of token lists of the remaining lines. -/
def parseContentTokens (s0 : ParserState) (lines : List (List PSTok)) : ParserState :=
  let s1 := setupCoordinateTransform s0
  let s2 := { s1 with pages := [{}] }
  lines.foldl (fun st tokens => runLineTokens tokens st) s2

/-- Number of `showpage` tokens in one line. -/
def showpageCountLine (tokens : List PSTok) : Nat :=
  tokens.countP (fun t => t = PSTok.word "showpage")

/-- Number of `showpage` tokens in the whole input. -/
def showpageCount (lines : List (List PSTok)) : Nat :=
  (lines.map showpageCountLine).sum

theorem appendToLastPaths_length (pages : List Page) (elems : List PathElement) :
    (appendToLastPaths pages elems).length = pages.length := by
  induction pages with
  | nil => rfl
  | cons p rest ih =>
      cases rest with
      | nil => rfl
      | cons q qs => simpa [appendToLastPaths] using ih

theorem appendToLastText_length (pages : List Page) (t : TextElement) :
    (appendToLastText pages t).length = pages.length := by
  induction pages with
  | nil => rfl
  | cons p rest ih =>
      cases rest with
      | nil => rfl
      | cons q qs => simpa [appendToLastText] using ih

theorem tokStep_pages_length (tokens : List PSTok) (i : Nat) (s : ParserState) :
    (tokStep tokens i s).pages.length =
      s.pages.length +
        (if tokens.get? i = some (PSTok.word "showpage") then 1 else 0) := by
  unfold tokStep
  cases h : tokens.get? i with
  | none => simp
  | some t =>
    cases t with
    | num x => simp
    | str l => simp
    | word w =>
      simp only [Option.some.injEq, PSTok.word.injEq]
      by_cases hsp : w = "showpage"
      · subst hsp
        rw [if_neg (by decide), if_neg (by decide), if_neg (by decide), if_neg (by decide),
            if_neg (by decide), if_neg (by decide), if_neg (by decide), if_neg (by decide),
            if_neg (by decide), if_neg (by decide), if_neg (by decide), if_pos rfl, if_pos rfl]
        simp
      · rw [if_neg hsp]
        by_cases h1 : w = "gsave" ∨ w = "q"
        · rw [if_pos h1]; simp [hsp]
        rw [if_neg h1]
        by_cases h2 : w = "grestore" ∨ w = "Q"
        · rw [if_pos h2]; cases s.state_stack <;> simp [hsp]
        rw [if_neg h2]
        by_cases h3 : w = "setlinewidth" ∨ w = "w"
        · rw [if_pos h3]; cases prevNum tokens i 1 <;> simp [hsp]
        rw [if_neg h3]
        by_cases h4 : w = "setrgbcolor" ∨ w = "rg"
        · rw [if_pos h4]
          cases prevNum tokens i 3 <;> cases prevNum tokens i 2 <;>
            cases prevNum tokens i 1 <;> simp [hsp]
        rw [if_neg h4]
        by_cases h5 : w = "moveto" ∨ w = "m"
        · rw [if_pos h5]
          cases prevNum tokens i 2 <;> cases prevNum tokens i 1 <;> simp [hsp]
        rw [if_neg h5]
        by_cases h6 : w = "lineto" ∨ w = "l"
        · rw [if_pos h6]
          cases prevNum tokens i 2 <;> cases prevNum tokens i 1 <;> simp [hsp]
        rw [if_neg h6]
        by_cases h7 : w = "curveto" ∨ w = "c"
        · rw [if_pos h7]
          cases prevNum tokens i 6 <;> cases prevNum tokens i 5 <;>
            cases prevNum tokens i 4 <;> cases prevNum tokens i 3 <;>
            cases prevNum tokens i 2 <;> cases prevNum tokens i 1 <;> simp [hsp]
        rw [if_neg h7]
        by_cases h8 : w = "closepath" ∨ w = "h"
        · rw [if_pos h8]; simp [hsp]
        rw [if_neg h8]
        by_cases h9 : w = "stroke" ∨ w = "s"
        · rw [if_pos h9]
          by_cases hc : s.current_path ≠ [] ∧ s.pages ≠ []
          · rw [if_pos hc]; simp [appendToLastPaths_length, hsp]
          · rw [if_neg hc]; simp [hsp]
        rw [if_neg h9]
        by_cases h10 : w = "fill" ∨ w = "f" ∨ w = "F"
        · rw [if_pos h10]
          by_cases hc : s.pages ≠ [] ∧ s.current_path ≠ []
          · simp only [if_pos hc]; simp [appendToLastPaths_length, hsp]
          · simp only [if_neg hc]; simp [hsp]
        rw [if_neg h10]
        by_cases h11 : w = "show" ∨ w = "Tj"
        · rw [if_pos h11]
          cases prevStr tokens i with
          | none => simp [hsp]
          | some txt =>
              by_cases hp : s.pages ≠ []
              · simp only [if_pos hp]; simp [appendToLastText_length, hsp]
              · simp only [if_neg hp]; simp [hsp]
        rw [if_neg h11, if_neg hsp]
        simp [hsp]

theorem foldl_tokStep_pages_length (tokens : List PSTok) (l : List Nat) (s : ParserState) :
    ((l.foldl (fun st i => tokStep tokens i st) s)).pages.length =
      s.pages.length +
        l.countP (fun i => tokens.get? i = some (PSTok.word "showpage")) := by
  induction l generalizing s with
  | nil => simp
  | cons i l ih =>
      rw [List.foldl_cons, ih, tokStep_pages_length]
      by_cases h : tokens.get? i = some (PSTok.word "showpage") <;>
        simp [List.countP_cons, h] <;> omega

theorem countP_range_get (tokens : List PSTok) (t : PSTok) :
    (List.range tokens.length).countP
        (fun i => tokens.get? i = some t) =
      tokens.countP (fun x => x = t) := by
  induction tokens with
  | nil => simp
  | cons a l ih =>
      rw [List.length_cons, List.range_succ_eq_map, List.countP_cons]
      simp only [List.countP_map]
      have : ∀ i : Nat, ((a :: l).get? (i + 1) = some t) = (l.get? i = some t) := by
        intro i; rfl
      rw [show (List.range l.length).countP
            ((fun i => decide ((a :: l).get? i = some t)) ∘ (· + 1)) =
          (List.range l.length).countP (fun i => decide (l.get? i = some t)) from ?_]
      · rw [ih]
        simp only [List.get?_cons_zero]
        by_cases h : a = t <;> simp [h]
      · apply List.countP_congr
        intro i _
        simp [Function.comp]

theorem runLineTokens_pages_length (tokens : List PSTok) (s : ParserState) :
    (runLineTokens tokens s).pages.length =
      s.pages.length + showpageCountLine tokens := by
  rw [runLineTokens, foldl_tokStep_pages_length, countP_range_get]
  rfl

theorem parseContentTokens_pages_length (s0 : ParserState) (lines : List (List PSTok)) :
    (parseContentTokens s0 lines).pages.length = 1 + showpageCount lines := by
  suffices h : ∀ (s : ParserState) (ls : List (List PSTok)),
      ((ls.foldl (fun st tokens => runLineTokens tokens st) s)).pages.length =
        s.pages.length + showpageCount ls by
    rw [parseContentTokens]
    simpa using h _ lines
  intro s ls
  induction ls generalizing s with
  | nil => simp [showpageCount]
  | cons tl ls ih =>
      rw [List.foldl_cons, ih, runLineTokens_pages_length]
      simp [showpageCount]
      omega

/-! ## Parser accessors (postscript_parser.cpp, public methods) -/

/-- Embedding of `PostScriptParser::GetPageDimensions`: on an out-of-range
index it returns `false` and leaves the out-parameters untouched; otherwise
it overwrites them with the page's dimensions and returns `true`. -/
def getPageDimensions (st : ParserState) (page_index : ℤ) (width height : ℚ) :
    Bool × ℚ × ℚ :=
  if page_index < 0 ∨ (st.pages.length : ℤ) ≤ page_index then (false, width, height)
  else
    let p := st.pages.getD page_index.toNat {}
    (true, p.width, p.height)

/-- Embedding of `PostScriptParser::GetPagePaths`. -/
def getPagePaths (st : ParserState) (page_index : ℤ) : List PathElement :=
  if page_index < 0 ∨ (st.pages.length : ℤ) ≤ page_index then []
  else (st.pages.getD page_index.toNat {}).paths

/-- Embedding of `PostScriptParser::GetPageText`. -/
def getPageText (st : ParserState) (page_index : ℤ) : List TextElement :=
  if page_index < 0 ∨ (st.pages.length : ℤ) ≤ page_index then []
  else (st.pages.getD page_index.toNat {}).text_elements

/-! ## PDF generation (pdf_generator.cpp) -/

/-- Shorthand turning a Lean string literal into its byte list. -/
def sl (s : String) : List Char := s.data

/-- Fixed-notation rendering with two decimals, modelling the
`std::fixed << std::setprecision(2)` stream state of `GeneratePageContent`
(rounding taken exactly on the rational value). -/
def renderFixed2 (q : ℚ) : List Char :=
  let m : Nat := (round (|q| * 100) : ℤ).toNat
  let ip := m / 100
  let fr := m % 100
  (if q < 0 then ['-'] else []) ++ renderNat ip ++
    ['.'] ++ (if fr < 10 then ['0'] else []) ++ renderNat fr

/-- Drop trailing `'0'` characters. -/
def stripTrailingZeros (cs : List Char) : List Char :=
  (cs.reverse.dropWhile (fun c => c = '0')).reverse

/-- Left-pad with `'0'` up to width `k`. -/
def padLeftZeros (k : Nat) (cs : List Char) : List Char :=
  List.replicate (k - cs.length) '0' ++ cs

/-- Models the default six-significant-digit `operator<<` formatting of a
double (used for the `/MediaBox` numbers, where no precision was set on the
stream), restricted to the plain-notation magnitude range that page
dimensions occupy. -/
def renderDefaultG (q : ℚ) : List Char :=
  let sign : List Char := if q < 0 then ['-'] else []
  let a := |q|
  let ip : Nat := (Int.floor a).toNat
  let ipLen := if ip = 0 then 0 else (renderNat ip).length
  let fd : Nat := 6 - ipLen
  let m : Nat := (round (a * (10 : ℚ) ^ fd) : ℤ).toNat
  let ip2 := m / 10 ^ fd
  let fr := m % 10 ^ fd
  if fr = 0 then sign ++ renderNat ip2
  else sign ++ renderNat ip2 ++ ['.'] ++ stripTrailingZeros (padLeftZeros fd (renderNat fr))

/-- One step of the path-rendering loop of `GeneratePageContent`: the
accumulator carries the emitted lines and the `has_open_path` flag. -/
def pathStep (acc : List (List Char) × Bool) (e : PathElement) : List (List Char) × Bool :=
  match e.type with
  | PathElemType.moveTo =>
      if 2 ≤ e.points.length then
        ((if acc.2 then acc.1 ++ [sl "S"] else acc.1) ++
          [renderFixed2 (e.points.getD 0 0) ++ sl " " ++
           renderFixed2 (e.points.getD 1 0) ++ sl " m"], true)
      else acc
  | PathElemType.lineTo =>
      if 2 ≤ e.points.length then
        (acc.1 ++
          [renderFixed2 (e.points.getD 0 0) ++ sl " " ++
           renderFixed2 (e.points.getD 1 0) ++ sl " l"], acc.2)
      else acc
  | PathElemType.curveTo =>
      if 6 ≤ e.points.length then
        (acc.1 ++
          [renderFixed2 (e.points.getD 0 0) ++ sl " " ++
           renderFixed2 (e.points.getD 1 0) ++ sl " " ++
           renderFixed2 (e.points.getD 2 0) ++ sl " " ++
           renderFixed2 (e.points.getD 3 0) ++ sl " " ++
           renderFixed2 (e.points.getD 4 0) ++ sl " " ++
           renderFixed2 (e.points.getD 5 0) ++ sl " c"], acc.2)
      else acc
  | PathElemType.closePath => (acc.1 ++ [sl "h"], acc.2)

/-- The three lines emitted for one text element. -/
def textElemLines (t : TextElement) : List (List Char) :=
  [renderFixed2 t.color_r ++ sl " " ++ renderFixed2 t.color_g ++ sl " " ++
     renderFixed2 t.color_b ++ sl " rg",
   sl "1 0 0 1 " ++ renderFixed2 t.x ++ sl " " ++ renderFixed2 t.y ++ sl " Tm",
   sl "(" ++ escapeString t.text ++ sl ") Tj"]

/-- The fixed preamble of every content stream: graphics-state setup plus the
hard-coded debug "test rectangle" the source draws on every page. -/
def preambleLines : List (List Char) :=
  [sl "q", sl "1 0 0 1 0 0 cm", sl "0 0 0 RG", sl "0 0 0 rg", sl "1 w",
   sl "1 J", sl "1 j", sl "% Test rectangle", sl "100 100 m", sl "150 100 l",
   sl "150 150 l", sl "100 150 l", sl "h", sl "S"]

/-- Embedding of `GeneratePageContent`, as the list of `\n`-terminated lines
it writes, in order: the fixed preamble and the path loop, the final `S` for
a still-open path, the text block when text is present, and the closing `Q`. -/
def genContentLines (page : Page) : List (List Char) :=
  (page.paths.foldl pathStep (preambleLines, false)).1 ++
    (if (page.paths.foldl pathStep (preambleLines, false)).2 then [sl "S"] else []) ++
    (if page.text_elements = [] then []
     else [sl "BT", sl "/F1 12 Tf"] ++
       (page.text_elements.map textElemLines).flatten ++ [sl "ET"]) ++
    [sl "Q"]

/-- The byte stream of a page's content (each emitted line ends in `\n`). -/
def contentBytes (page : Page) : List Char :=
  ((genContentLines page).map (fun l => l ++ ['\n'])).flatten

/-- One indirect object: id plus body bytes (`struct PDFObject`). -/
structure PDFObject where
  id : Nat
  content : List Char
deriving DecidableEq, Repr

/-- Embedding of the content-stream object construction in
`CreatePageObjects`: dictionary with `/Length`, then
`stream\n<body>\nendstream\n`. -/
def contentObjBytes (body : List Char) : List Char :=
  sl "<<\n/Length " ++ renderNat body.length ++ sl "\n>>\nstream\n" ++
    body ++ sl "\nendstream\n"

/-- Embedding of `CreateCatalogObject`'s body: `next_object_id_` is 2 when
the catalog is built, so the `/Pages` reference is to object 2. -/
def catalogContent : List Char :=
  sl "<<\n/Type /Catalog\n/Pages " ++ renderNat 2 ++ sl " 0 R\n>>\n"

/-- The `/Kids` array body written by `CreatePagesObject`: `count` references
with consecutive ids starting at `i` (the code writes `next_object_id_ + i`,
with `next_object_id_ = 3`). -/
def kidsBytes : Nat → Nat → List Char
  | _, 0 => []
  | i, Nat.succ n => renderNat i ++ sl " 0 R " ++ kidsBytes (i + 1) n

/-- Embedding of `CreatePagesObject`'s body. -/
def pagesObjContent (n : Nat) : List Char :=
  sl "<<\n/Type /Pages\n/Count " ++ renderNat n ++ sl "\n/Kids [" ++
    kidsBytes 3 n ++ sl "]\n>>\n"

/-- Embedding of the page-object body built in `CreatePageObjects`; the
`/Parent` reference is `objects_[1].id`, which is always 2. -/
def pageObjContent (contentId fontId : Nat) (p : Page) : List Char :=
  sl "<<\n/Type /Page\n/Parent " ++ renderNat 2 ++ sl " 0 R\n/MediaBox [0 0 " ++
    renderDefaultG p.width ++ sl " " ++ renderDefaultG p.height ++
    sl "]\n/Contents " ++ renderNat contentId ++
    sl " 0 R\n/Resources <<\n  /Font << /F1 " ++ renderNat fontId ++
    sl " 0 R >>\n>>\n>>\n"

/-- The per-page loop of `CreatePageObjects`: a page object and its content
stream object, with consecutive ids. -/
def pageAndContentObjs : Nat → Nat → List Page → List PDFObject
  | _, _, [] => []
  | pid, fontId, p :: rest =>
      { id := pid, content := pageObjContent (pid + 1) fontId p } ::
      { id := pid + 1, content := contentObjBytes (contentBytes p) } ::
      pageAndContentObjs (pid + 2) fontId rest

/-- Embedding of `CreateFontObject`'s body. -/
def fontContent : List Char :=
  sl "<<\n/Type /Font\n/Subtype /Type1\n/BaseFont /Helvetica\n>>\n"

/-- The indirect-object list built by `WritePDF` (catalog, pages tree, then a
page/content pair per page, then the font object); ids are assigned from
`next_object_id_` starting at 1. -/
def buildObjects (pages : List Page) : List PDFObject :=
  { id := 1, content := catalogContent } ::
  { id := 2, content := pagesObjContent pages.length } ::
  (pageAndContentObjs 3 (3 + 2 * pages.length) pages ++
    [{ id := 3 + 2 * pages.length, content := fontContent }])

/-- The pages handed to the generator by `CreatePDF` are exactly the
parser's pages (dimensions, paths and text are copied field by field). -/
def createPDFPages (st : ParserState) : List Page := st.pages

/-- PDF header bytes for the default compatibility level 1.7, with the
four-byte binary marker comment. -/
def pdfHeader : List Char :=
  sl "%PDF-1.7\n%" ++
    [Char.ofNat 0xE2, Char.ofNat 0xE3, Char.ofNat 0xCF, Char.ofNat 0xD3] ++ ['\n']

/-- Bytes written for one object: `<id> 0 obj\n<body>endobj\n\n`. -/
def objChunk (o : PDFObject) : List Char :=
  renderNat o.id ++ sl " 0 obj\n" ++ o.content ++ sl "endobj\n\n"

/-- Object offsets as recorded by `tellp()` in the write loop of `WritePDF`:
each object's offset is the number of bytes emitted before it. -/
def objOffsets : List PDFObject → Nat → List Nat
  | [], _ => []
  | o :: rest, pos => pos :: objOffsets rest (pos + (objChunk o).length)

/-- The `setfill('0') << setw(10)` offset field of an xref entry. -/
def padZeros10 (n : Nat) : List Char :=
  List.replicate (10 - (renderNat n).length) '0' ++ renderNat n

/-- One in-use cross-reference entry line. -/
def xrefEntry (off : Nat) : List Char := padZeros10 off ++ sl " 00000 n \n"

/-- Embedding of `WriteCrossReferenceTable`. -/
def xrefTable (offs : List Nat) : List Char :=
  sl "xref\n0 " ++ renderNat (offs.length + 1) ++ sl "\n" ++
    sl "0000000000 65535 f \n" ++ (offs.map xrefEntry).flatten

/-- Embedding of `WriteTrailer` (`/Root` is `objects_[0].id`). -/
def trailerBytes (numObjs rootId xrefOff : Nat) : List Char :=
  sl "trailer\n<<\n/Size " ++ renderNat (numObjs + 1) ++ sl "\n/Root " ++
    renderNat rootId ++ sl " 0 R\n>>\nstartxref\n" ++ renderNat xrefOff ++
    sl "\n%%EOF\n"

/-- Embedding of `WritePDF` (byte stream only): header, the objects in
order, the cross-reference table, then the trailer. -/
def writePDFBytes (objs : List PDFObject) : List Char :=
  let body := pdfHeader ++ (objs.map objChunk).flatten
  body ++ xrefTable (objOffsets objs pdfHeader.length) ++
    trailerBytes objs.length ((objs.headD { id := 0, content := [] }).id) body.length

/-! ## Reading back serialized objects -/

/-- Parse the bytes of a content-stream object: the `/Length` dictionary,
the `stream\n` keyword, the body, and the `\nendstream\n` tail. -/
def parseContentObj (s : List Char) : Option (Nat × List Char) :=
  match stripPre (sl "<<\n/Length ") s with
  | none => none
  | some r1 =>
      let ds := r1.takeWhile isDigitChar
      let r2 := r1.dropWhile isDigitChar
      match stripPre (sl "\n>>\nstream\n") r2 with
      | none => none
      | some r3 =>
          let suf := sl "\nendstream\n"
          if r3.drop (r3.length - suf.length) = suf then
            some (parseNat ds, r3.take (r3.length - suf.length))
          else none

theorem parseContentObj_contentObjBytes (body : List Char) :
    parseContentObj (contentObjBytes body) = some (body.length, body) := by
  have hsplit : contentObjBytes body =
      sl "<<\n/Length " ++ (renderNat body.length ++
        ('\n' :: (sl ">>\nstream\n" ++ (body ++ sl "\nendstream\n")))) := by
    simp [contentObjBytes, sl]
  obtain ⟨htake, hdrop⟩ :=
    takeWhile_append_of_all (p := isDigitChar) (a := '\n')
      (x := renderNat body.length)
      (sl ">>\nstream\n" ++ (body ++ sl "\nendstream\n"))
      (renderNat_all_digits body.length) (by decide)
  have h2 : ('\n' : Char) :: (sl ">>\nstream\n" ++ (body ++ sl "\nendstream\n")) =
      sl "\n>>\nstream\n" ++ (body ++ sl "\nendstream\n") := by
    simp [sl]
  have hlen : (body ++ sl "\nendstream\n").length - (sl "\nendstream\n").length =
      body.length := by
    simp [sl]
  have hd : (body ++ sl "\nendstream\n").drop body.length = sl "\nendstream\n" :=
    List.drop_left body (sl "\nendstream\n")
  have ht : (body ++ sl "\nendstream\n").take body.length = body :=
    List.take_left body (sl "\nendstream\n")
  rw [parseContentObj, hsplit, stripPre_append]
  simp only [htake, hdrop]
  rw [h2]
  simp only [stripPre_append]
  simp [hlen, hd, ht, parseNat_renderNat]

/-- Claim C3: for every content-stream object of every generated PDF, the
numeric `/Length` value in its dictionary equals the exact number of bytes
of the stream body lying between `stream\n` and `\nendstream`. -/
theorem claim_C3_length_exact (page : Page) :
    ∃ n seg,
      parseContentObj (contentObjBytes (contentBytes page)) = some (n, seg) ∧
      n = seg.length ∧ seg = contentBytes page :=
  ⟨(contentBytes page).length, contentBytes page,
    parseContentObj_contentObjBytes (contentBytes page), rfl, rfl⟩

/-- Claim C9: for every literal PS string recorded as a text element, the
`Tj` operand line is `(` followed by the escaped string (`\`→`\\`, `(`→`\(`,
`)`→`\)`) followed by `) Tj`, and reversing the escaping recovers exactly
the original string. -/
theorem claim_C9_escape_roundtrip (t : TextElement) :
    (textElemLines t).get? 2 =
      some (sl "(" ++ escapeString t.text ++ sl ") Tj") ∧
    unescapeString (escapeString t.text) = t.text :=
  ⟨rfl, unescape_escape t.text⟩

/-- Claim C10: for every page index outside `[0, page count)`,
`GetPageDimensions` returns `false` with its out-parameters unmodified, and
`GetPagePaths` and `GetPageText` return the empty vector. -/
theorem claim_C10_out_of_range (st : ParserState) (i : ℤ) (w h : ℚ)
    (hout : i < 0 ∨ (st.pages.length : ℤ) ≤ i) :
    getPageDimensions st i w h = (false, w, h) ∧
    getPagePaths st i = [] ∧ getPageText st i = [] := by
  unfold getPageDimensions getPagePaths getPageText
  rw [if_pos hout, if_pos hout, if_pos hout]
  exact ⟨rfl, rfl, rfl⟩

/-- Witness for C10 at a concrete out-of-range index. -/
theorem claim_C10_witness :
    getPageDimensions { pages := [{}] } 3 7 9 = (false, 7, 9) ∧
    getPagePaths { pages := [{}] } 3 = [] ∧
    getPageText { pages := [{}] } 3 = [] :=
  claim_C10_out_of_range { pages := [{}] } 3 7 9 (Or.inr (by decide))

/-! ## Cross-reference table alignment (claim C4) -/

/-- The xref section as individual lines: the free entry then one in-use
entry per object. -/
def xrefEntryLines (offs : List Nat) : List (List Char) :=
  sl "0000000000 65535 f \n" :: offs.map xrefEntry

theorem objOffsets_length (objs : List PDFObject) (pos : Nat) :
    (objOffsets objs pos).length = objs.length := by
  induction objs generalizing pos with
  | nil => rfl
  | cons o rest ih => simp [objOffsets, ih]

theorem objOffsets_get_le (objs : List PDFObject) (pos k off : Nat)
    (h : (objOffsets objs pos).get? k = some off) :
    off ≤ pos + ((objs.map objChunk).flatten).length := by
  induction objs generalizing pos k with
  | nil => simp [objOffsets] at h
  | cons o rest ih =>
      cases k with
      | zero =>
          simp only [objOffsets, List.get?_cons_zero, Option.some.injEq] at h
          subst h
          omega
      | succ k =>
          simp only [objOffsets, List.get?_cons_succ] at h
          have := ih (pos + (objChunk o).length) k h
          simp only [List.map_cons, List.flatten_cons, List.length_append]
          omega

theorem writePDF_drop_at_offset :
    ∀ (objs : List PDFObject) (pre tail : List Char) (k : Nat), k < objs.length →
      ∃ off o, (objOffsets objs pre.length).get? k = some off ∧
        objs.get? k = some o ∧
        (pre ++ (objs.map objChunk).flatten ++ tail).drop off =
          objChunk o ++ (((objs.drop (k + 1)).map objChunk).flatten ++ tail) := by
  intro objs
  induction objs with
  | nil => intro pre tail k hk; simp at hk
  | cons o rest ih =>
      intro pre tail k hk
      cases k with
      | zero =>
          refine ⟨pre.length, o, by simp [objOffsets], rfl, ?_⟩
          have hre : pre ++ ((o :: rest).map objChunk).flatten ++ tail =
              pre ++ (((o :: rest).map objChunk).flatten ++ tail) := by
            rw [List.append_assoc]
          rw [hre, List.drop_left]
          simp [List.map_cons, List.flatten_cons, List.append_assoc]
      | succ k =>
          have hk' : k < rest.length := by simpa using hk
          obtain ⟨off, ob, h1, h2, h3⟩ := ih (pre ++ objChunk o) tail k hk'
          refine ⟨off, ob, ?_, by simpa using h2, ?_⟩
          · simp only [objOffsets, List.get?_cons_succ]
            rw [show pre.length + (objChunk o).length = (pre ++ objChunk o).length by simp]
            exact h1
          · have hre : pre ++ ((o :: rest).map objChunk).flatten ++ tail =
                (pre ++ objChunk o) ++ (rest.map objChunk).flatten ++ tail := by
              simp [List.map_cons, List.flatten_cons, List.append_assoc]
            rw [hre, h3]
            rfl

theorem padZeros10_length {n : Nat} (h : n < 10 ^ 10) :
    (padZeros10 n).length = 10 := by
  have hr : (renderNat n).length ≤ 10 := renderNat_length_le h (by norm_num)
  simp only [padZeros10, List.length_append, List.length_replicate]
  omega

/-- Claim C4: every xref entry line is exactly 20 bytes long (trailing
newline included), and the 10-digit offset on entry line `k+1` is the byte
offset at which object `k`'s `<id> 0 obj` header begins in the output. -/
theorem claim_C4_xref_alignment (objs : List PDFObject) (k : Nat)
    (hk : k < objs.length) (hfit : (writePDFBytes objs).length < 10 ^ 10) :
    ∃ off o,
      (objOffsets objs pdfHeader.length).get? k = some off ∧
      objs.get? k = some o ∧
      (xrefEntryLines (objOffsets objs pdfHeader.length)).get? (k + 1) =
        some (xrefEntry off) ∧
      (xrefEntry off).length = 20 ∧
      ∃ rest, (writePDFBytes objs).drop off =
        renderNat o.id ++ sl " 0 obj\n" ++ rest := by
  have hw : writePDFBytes objs =
      pdfHeader ++ (objs.map objChunk).flatten ++
        (xrefTable (objOffsets objs pdfHeader.length) ++
          trailerBytes objs.length ((objs.headD { id := 0, content := [] }).id)
            (pdfHeader ++ (objs.map objChunk).flatten).length) := by
    simp [writePDFBytes, List.append_assoc]
  obtain ⟨off, o, h1, h2, h3⟩ :=
    writePDF_drop_at_offset objs pdfHeader
      (xrefTable (objOffsets objs pdfHeader.length) ++
        trailerBytes objs.length ((objs.headD { id := 0, content := [] }).id)
          (pdfHeader ++ (objs.map objChunk).flatten).length) k hk
  have hoff_le : off ≤ (pdfHeader ++ (objs.map objChunk).flatten).length := by
    have := objOffsets_get_le objs pdfHeader.length k off h1
    simp only [List.length_append]
    omega
  have hoff_lt : off < 10 ^ 10 := by
    have hbody : (pdfHeader ++ (objs.map objChunk).flatten).length ≤
        (writePDFBytes objs).length := by
      rw [hw]
      simp only [List.length_append]
      omega
    simp only [List.length_append] at hbody hoff_le
    omega
  have h1e : (objOffsets objs pdfHeader.length)[k]? = some off := by
    simpa using h1
  refine ⟨off, o, h1, h2, ?_, ?_, ?_⟩
  · simp [xrefEntryLines, List.getElem?_map, h1e]
  · simp [xrefEntry, padZeros10_length hoff_lt, sl]
  · refine ⟨o.content ++ sl "endobj\n\n" ++
      (((objs.drop (k + 1)).map objChunk).flatten ++
        (xrefTable (objOffsets objs pdfHeader.length) ++
          trailerBytes objs.length ((objs.headD { id := 0, content := [] }).id)
            (pdfHeader ++ (objs.map objChunk).flatten).length)), ?_⟩
    rw [hw, h3]
    simp [objChunk, List.append_assoc]

set_option maxRecDepth 10000 in
/-- Witness for C4: the three-object PDF generated from an empty page list,
at object index 0. -/
theorem claim_C4_witness :
    0 < (buildObjects []).length ∧
    (writePDFBytes (buildObjects [])).length < 10 ^ 10 ∧
    (∃ off o,
      (objOffsets (buildObjects []) pdfHeader.length).get? 0 = some off ∧
      (buildObjects []).get? 0 = some o ∧
      (xrefEntryLines (objOffsets (buildObjects []) pdfHeader.length)).get? (0 + 1) =
        some (xrefEntry off) ∧
      (xrefEntry off).length = 20 ∧
      ∃ rest, (writePDFBytes (buildObjects [])).drop off =
        renderNat o.id ++ sl " 0 obj\n" ++ rest) :=
  ⟨by decide, by decide, claim_C4_xref_alignment (buildObjects []) 0 (by decide) (by decide)⟩

/-! ## Catalog / Pages identity (claim C7) -/

/-- The object ids referenced from `/Kids`: `count` consecutive ids from `i`. -/
def refIds : Nat → Nat → List Nat
  | _, 0 => []
  | i, Nat.succ n => i :: refIds (i + 1) n

/-- Parse a sequence of `<id> 0 R ` references up to a closing `]`. -/
def parseRefs : Nat → List Char → Option (List Nat × List Char)
  | 0, _ => none
  | fuel + 1, s =>
      if s.head? = some ']' then some ([], s)
      else
        let ds := s.takeWhile isDigitChar
        if ds = [] then none
        else
          match stripPre (sl " 0 R ") (s.dropWhile isDigitChar) with
          | none => none
          | some rest =>
              match parseRefs fuel rest with
              | some (refs, rem) => some (parseNat ds :: refs, rem)
              | none => none

/-- Parse the Pages-tree object body: its `/Count` value and `/Kids` ids. -/
def parsePagesObj (s : List Char) : Option (Nat × List Nat) :=
  match stripPre (sl "<<\n/Type /Pages\n/Count ") s with
  | none => none
  | some r1 =>
      let ds := r1.takeWhile isDigitChar
      let r2 := r1.dropWhile isDigitChar
      match stripPre (sl "\n/Kids [") r2 with
      | none => none
      | some r3 =>
          match parseRefs r3.length r3 with
          | none => none
          | some (refs, rem) =>
              if rem = sl "]\n>>\n" ∧ ds ≠ [] then some (parseNat ds, refs)
              else none

/-- Parse a Catalog object body: the id of its `/Pages` reference. -/
def parseCatalogPagesRef (s : List Char) : Option Nat :=
  match stripPre (sl "<<\n/Type /Catalog\n/Pages ") s with
  | none => none
  | some r1 =>
      let ds := r1.takeWhile isDigitChar
      if r1.dropWhile isDigitChar = sl " 0 R\n>>\n" ∧ ds ≠ [] then some (parseNat ds)
      else none

theorem refIds_length (i n : Nat) : (refIds i n).length = n := by
  induction n generalizing i with
  | zero => rfl
  | succ n ih => simp [refIds, ih]

theorem kidsBytes_length_ge (i n : Nat) : n ≤ (kidsBytes i n).length := by
  induction n generalizing i with
  | zero => simp [kidsBytes]
  | succ n ih =>
      have := ih (i + 1)
      simp only [kidsBytes, List.length_append]
      have hr : 1 ≤ (renderNat i).length := by
        cases hE : renderNat i with
        | nil => exact absurd hE (renderNat_ne_nil i)
        | cons c cs => simp
      simp only [sl]
      omega

theorem head_renderNat_ne_bracket (n : Nat) (c : Char) (cs : List Char)
    (h : renderNat n = c :: cs) : c ≠ ']' := by
  intro hc
  have := renderNat_all_digits n c (by rw [h]; simp)
  subst hc
  simp [isDigitChar] at this

theorem parseRefs_kidsBytes :
    ∀ (n i fuel : Nat) (t : List Char), n < fuel →
      parseRefs fuel (kidsBytes i n ++ ']' :: t) = some (refIds i n, ']' :: t) := by
  intro n
  induction n with
  | zero =>
      intro i fuel t hf
      cases fuel with
      | zero => omega
      | succ f => simp [kidsBytes, parseRefs, refIds]
  | succ n ih =>
      intro i fuel t hf
      cases fuel with
      | zero => omega
      | succ f =>
          obtain ⟨c, cs, hE⟩ := List.exists_cons_of_ne_nil (renderNat_ne_nil i)
          have hshape : kidsBytes i (n + 1) ++ ']' :: t =
              renderNat i ++ (' ' :: (sl "0 R " ++ (kidsBytes (i + 1) n ++ ']' :: t))) := by
            simp [kidsBytes, sl, List.append_assoc]
          obtain ⟨htake, hdrop⟩ :=
            takeWhile_append_of_all (p := isDigitChar) (a := ' ')
              (x := renderNat i)
              (sl "0 R " ++ (kidsBytes (i + 1) n ++ ']' :: t))
              (renderNat_all_digits i) (by decide)
          have hhead : (kidsBytes i (n + 1) ++ ']' :: t).head? ≠ some ']' := by
            rw [hshape, hE]
            simp only [List.cons_append, List.head?_cons]
            simpa using head_renderNat_ne_bracket i c cs hE
          rw [parseRefs, if_neg hhead]
          simp only [hshape, htake, hdrop]
          rw [if_neg (renderNat_ne_nil i)]
          have hsp : (' ' :: (sl "0 R " ++ (kidsBytes (i + 1) n ++ ']' :: t))) =
              sl " 0 R " ++ (kidsBytes (i + 1) n ++ ']' :: t) := by
            simp [sl]
          rw [hsp, stripPre_append]
          simp only [ih (i + 1) f t (by omega)]
          simp [refIds, parseNat_renderNat]

theorem parsePagesObj_pagesObjContent (n : Nat) :
    parsePagesObj (pagesObjContent n) = some (n, refIds 3 n) := by
  have hsplit : pagesObjContent n =
      sl "<<\n/Type /Pages\n/Count " ++
        (renderNat n ++ ('\n' :: (sl "/Kids [" ++
          (kidsBytes 3 n ++ ']' :: sl "\n>>\n")))) := by
    simp [pagesObjContent, sl]
  obtain ⟨htake, hdrop⟩ :=
    takeWhile_append_of_all (p := isDigitChar) (a := '\n')
      (x := renderNat n)
      (sl "/Kids [" ++ (kidsBytes 3 n ++ ']' :: sl "\n>>\n"))
      (renderNat_all_digits n) (by decide)
  rw [parsePagesObj, hsplit, stripPre_append]
  simp only [htake, hdrop]
  have h2 : ('\n' : Char) :: (sl "/Kids [" ++ (kidsBytes 3 n ++ ']' :: sl "\n>>\n")) =
      sl "\n/Kids [" ++ (kidsBytes 3 n ++ ']' :: sl "\n>>\n") := by
    simp [sl]
  rw [h2]
  simp only [stripPre_append]
  have hfuel : n < (kidsBytes 3 n ++ ']' :: sl "\n>>\n").length := by
    have := kidsBytes_length_ge 3 n
    simp only [List.length_append, List.length_cons]
    omega
  rw [parseRefs_kidsBytes n 3 _ (sl "\n>>\n") hfuel]
  simp [parseNat_renderNat, renderNat_ne_nil, sl]

set_option maxRecDepth 4000 in
theorem parseCatalogPagesRef_catalogContent :
    parseCatalogPagesRef catalogContent = some 2 := by decide

/-- Claim C7: indirect object 1 is the Catalog and object 2 the Pages tree;
the trailer's `/Root` id is object 1's id (the Catalog, whose body carries
`/Type /Catalog` and whose `/Pages` reference targets object 2); object 2's
body carries `/Type /Pages`, and its `/Count` equals the number of
references in its `/Kids` array. -/
theorem claim_C7_catalog_pages_identity (P : List Page) :
    (buildObjects P).get? 0 = some { id := 1, content := catalogContent } ∧
    (buildObjects P).get? 1 = some { id := 2, content := pagesObjContent P.length } ∧
    ((buildObjects P).headD { id := 0, content := [] }).id = 1 ∧
    (stripPre (sl "<<\n/Type /Catalog\n") catalogContent).isSome = true ∧
    parseCatalogPagesRef catalogContent = some 2 ∧
    (stripPre (sl "<<\n/Type /Pages\n") (pagesObjContent P.length)).isSome = true ∧
    parsePagesObj (pagesObjContent P.length) = some (P.length, refIds 3 P.length) ∧
    (refIds 3 P.length).length = P.length := by
  refine ⟨rfl, rfl, rfl, by decide, parseCatalogPagesRef_catalogContent, ?_,
    parsePagesObj_pagesObjContent P.length, refIds_length 3 P.length⟩
  have hsplit : pagesObjContent P.length =
      sl "<<\n/Type /Pages\n" ++ (sl "/Count " ++ (renderNat P.length ++
        (sl "\n/Kids [" ++ (kidsBytes 3 P.length ++ sl "]\n>>\n")))) := by
    simp [pagesObjContent, sl]
  rw [hsplit, stripPre_append]
  rfl

/-! ## Page-object count (claim C2) -/

/-- An object is a page object when its body starts with the page-object
dictionary opening. -/
def isPageObj (o : PDFObject) : Bool :=
  (stripPre (sl "<<\n/Type /Page\n") o.content).isSome

/-- Number of page objects among the written indirect objects. -/
def numPageObjects (objs : List PDFObject) : Nat :=
  objs.countP (fun o => isPageObj o)

theorem isPageObj_pageObjContent (i cid fid : Nat) (p : Page) :
    isPageObj { id := i, content := pageObjContent cid fid p } = true := by
  have hsplit : pageObjContent cid fid p =
      sl "<<\n/Type /Page\n" ++ (sl "/Parent " ++ (renderNat 2 ++
        (sl " 0 R\n/MediaBox [0 0 " ++ (renderDefaultG p.width ++ (sl " " ++
        (renderDefaultG p.height ++ (sl "]\n/Contents " ++ (renderNat cid ++
        (sl " 0 R\n/Resources <<\n  /Font << /F1 " ++ (renderNat fid ++
        sl " 0 R >>\n>>\n>>\n")))))))))) := by
    simp [pageObjContent, sl]
  simp [isPageObj, hsplit, stripPre_append]

theorem isPageObj_contentObjBytes (i : Nat) (body : List Char) :
    isPageObj { id := i, content := contentObjBytes body } = false := rfl

theorem isPageObj_pagesObjContent (i n : Nat) :
    isPageObj { id := i, content := pagesObjContent n } = false := rfl

theorem countP_pageAndContentObjs (pid fid : Nat) (P : List Page) :
    (pageAndContentObjs pid fid P).countP (fun o => isPageObj o) = P.length := by
  induction P generalizing pid with
  | nil => rfl
  | cons p rest ih =>
      simp [pageAndContentObjs, List.countP_cons, isPageObj_pageObjContent,
        isPageObj_contentObjBytes, ih]

theorem numPageObjects_buildObjects (P : List Page) :
    numPageObjects (buildObjects P) = P.length := by
  have h1 : isPageObj { id := 1, content := catalogContent } = false := rfl
  have h2 : isPageObj { id := 2, content := pagesObjContent P.length } = false := rfl
  have h3 : isPageObj { id := 3 + 2 * P.length, content := fontContent } = false := rfl
  simp [numPageObjects, buildObjects, List.countP_cons, List.countP_append,
    h1, h2, h3, countP_pageAndContentObjs]

/-- Claim C2 (amended): the number of page objects in the generated PDF, and
the `/Count` of its Pages tree, equal the number of `showpage` occurrences
plus one for the implicit first page — always: the trailing page created by
the last `showpage` appears in the output even when it received no items. -/
theorem claim_C2_page_count (st0 : ParserState) (lines : List (List PSTok)) :
    numPageObjects (buildObjects (createPDFPages (parseContentTokens st0 lines))) =
      showpageCount lines + 1 ∧
    parsePagesObj (pagesObjContent
        (createPDFPages (parseContentTokens st0 lines)).length) =
      some (showpageCount lines + 1, refIds 3 (showpageCount lines + 1)) := by
  have hlen : (createPDFPages (parseContentTokens st0 lines)).length =
      showpageCount lines + 1 := by
    rw [createPDFPages, parseContentTokens_pages_length]
    omega
  constructor
  · rw [numPageObjects_buildObjects, hlen]
  · rw [hlen, parsePagesObj_pagesObjContent]

/-- Counterexample to C2 as stated: on the input consisting of the single
token `showpage`, nothing is committed after the `showpage`, so the claim
requires the trailing implicit page to be dropped and exactly one page
object to be emitted; the code emits two page objects, and the trailing
page it keeps is empty. -/
theorem claim_C2_counterexample :
    numPageObjects (buildObjects (createPDFPages
        (parseContentTokens {} [[PSTok.word "showpage"]]))) = 2 ∧
    ((parseContentTokens {} [[PSTok.word "showpage"]]).pages.getLast?).map
        (fun p => (p.paths, p.text_elements)) = some ([], []) ∧
    ¬ numPageObjects (buildObjects (createPDFPages
        (parseContentTokens {} [[PSTok.word "showpage"]]))) = 1 := by
  refine ⟨by decide, by decide, by decide⟩

/-! ## Coordinate transform (claim C1) -/

/-- A fresh parser state whose bounding box has been set from the DSC
header, as `ParseContent` has it right before `SetupCoordinateTransform`. -/
def bboxState (x1 y1 x2 y2 : ℚ) : ParserState :=
  { bbox_x1 := x1, bbox_y1 := y1, bbox_x2 := x2, bbox_y2 := y2 }

theorem run_moveto_stroke (x1 y1 x2 y2 x y : ℚ) :
    (parseContentTokens (bboxState x1 y1 x2 y2)
        [[PSTok.num x, PSTok.num y, PSTok.word "moveto", PSTok.word "stroke"]]).pages =
      [{ paths := [⟨PathElemType.moveTo,
          [(transformCoordinates (setupCoordinateTransform (bboxState x1 y1 x2 y2)) x y).1,
           (transformCoordinates (setupCoordinateTransform (bboxState x1 y1 x2 y2)) x y).2]⟩] }] :=
  rfl

/-- The coordinate map a document with bounding box `(x1,y1,x2,y2)` uses:
`TransformCoordinates` after `SetupCoordinateTransform` has run on that box. -/
def bboxTransform (x1 y1 x2 y2 x y : ℚ) : ℚ × ℚ :=
  transformCoordinates (setupCoordinateTransform (bboxState x1 y1 x2 y2)) x y

theorem transformCoordinates_congr {s t : ParserState}
    (hs : s.transform_scale = t.transform_scale)
    (hox : s.transform_offset_x = t.transform_offset_x)
    (hoy : s.transform_offset_y = t.transform_offset_y)
    (hh : s.transform_pdf_height = t.transform_pdf_height) (x y : ℚ) :
    transformCoordinates s x y = transformCoordinates t x y := by
  unfold transformCoordinates
  rw [hs, hox, hoy, hh]

theorem tokStep_transform_invariant (tokens : List PSTok) (i : Nat) (st : ParserState) :
    (tokStep tokens i st).transform_scale = st.transform_scale ∧
    (tokStep tokens i st).transform_offset_x = st.transform_offset_x ∧
    (tokStep tokens i st).transform_offset_y = st.transform_offset_y ∧
    (tokStep tokens i st).transform_pdf_height = st.transform_pdf_height := by
  unfold tokStep
  cases h : tokens.get? i with
  | none => exact ⟨by trivial, by trivial, by trivial, by trivial⟩
  | some t =>
    cases t with
    | num q => exact ⟨by trivial, by trivial, by trivial, by trivial⟩
    | str l => exact ⟨by trivial, by trivial, by trivial, by trivial⟩
    | word w =>
      dsimp only
      by_cases h1 : w = "gsave" ∨ w = "q"
      · rw [if_pos h1]; exact ⟨by trivial, by trivial, by trivial, by trivial⟩
      rw [if_neg h1]
      by_cases h2 : w = "grestore" ∨ w = "Q"
      · rw [if_pos h2]; cases st.state_stack <;> exact ⟨by trivial, by trivial, by trivial, by trivial⟩
      rw [if_neg h2]
      by_cases h3 : w = "setlinewidth" ∨ w = "w"
      · rw [if_pos h3]; cases prevNum tokens i 1 <;> exact ⟨by trivial, by trivial, by trivial, by trivial⟩
      rw [if_neg h3]
      by_cases h4 : w = "setrgbcolor" ∨ w = "rg"
      · rw [if_pos h4]
        cases prevNum tokens i 3 <;> cases prevNum tokens i 2 <;>
          cases prevNum tokens i 1 <;> exact ⟨by trivial, by trivial, by trivial, by trivial⟩
      rw [if_neg h4]
      by_cases h5 : w = "moveto" ∨ w = "m"
      · rw [if_pos h5]
        cases prevNum tokens i 2 <;> cases prevNum tokens i 1 <;> exact ⟨by trivial, by trivial, by trivial, by trivial⟩
      rw [if_neg h5]
      by_cases h6 : w = "lineto" ∨ w = "l"
      · rw [if_pos h6]
        cases prevNum tokens i 2 <;> cases prevNum tokens i 1 <;> exact ⟨by trivial, by trivial, by trivial, by trivial⟩
      rw [if_neg h6]
      by_cases h7 : w = "curveto" ∨ w = "c"
      · rw [if_pos h7]
        cases prevNum tokens i 6 <;> cases prevNum tokens i 5 <;>
          cases prevNum tokens i 4 <;> cases prevNum tokens i 3 <;>
          cases prevNum tokens i 2 <;> cases prevNum tokens i 1 <;>
          exact ⟨by trivial, by trivial, by trivial, by trivial⟩
      rw [if_neg h7]
      by_cases h8 : w = "closepath" ∨ w = "h"
      · rw [if_pos h8]; exact ⟨by trivial, by trivial, by trivial, by trivial⟩
      rw [if_neg h8]
      by_cases h9 : w = "stroke" ∨ w = "s"
      · rw [if_pos h9]
        by_cases hc : st.current_path ≠ [] ∧ st.pages ≠ []
        · rw [if_pos hc]; exact ⟨by trivial, by trivial, by trivial, by trivial⟩
        · rw [if_neg hc]; exact ⟨by trivial, by trivial, by trivial, by trivial⟩
      rw [if_neg h9]
      by_cases h10 : w = "fill" ∨ w = "f" ∨ w = "F"
      · rw [if_pos h10]
        by_cases hc : st.pages ≠ [] ∧ st.current_path ≠ []
        · simp only [if_pos hc]; exact ⟨by trivial, by trivial, by trivial, by trivial⟩
        · simp only [if_neg hc]; exact ⟨by trivial, by trivial, by trivial, by trivial⟩
      rw [if_neg h10]
      by_cases h11 : w = "show" ∨ w = "Tj"
      · rw [if_pos h11]
        cases prevStr tokens i with
        | none => exact ⟨by trivial, by trivial, by trivial, by trivial⟩
        | some txt =>
            by_cases hp : st.pages ≠ []
            · simp only [if_pos hp]; exact ⟨by trivial, by trivial, by trivial, by trivial⟩
            · simp only [if_neg hp]; exact ⟨by trivial, by trivial, by trivial, by trivial⟩
      rw [if_neg h11]
      by_cases h12 : w = "showpage"
      · rw [if_pos h12]; exact ⟨by trivial, by trivial, by trivial, by trivial⟩
      · rw [if_neg h12]; exact ⟨by trivial, by trivial, by trivial, by trivial⟩

theorem tokStep_moveto (tokens : List PSTok) (i : Nat) (st : ParserState) (x y : ℚ)
    (hop : tokens.get? i = some (PSTok.word "moveto") ∨
      tokens.get? i = some (PSTok.word "m"))
    (hx : prevNum tokens i 2 = some x) (hy : prevNum tokens i 1 = some y) :
    (tokStep tokens i st).current_path =
      st.current_path ++ [⟨PathElemType.moveTo,
        [(transformCoordinates st x y).1, (transformCoordinates st x y).2]⟩] := by
  rcases hop with hop | hop <;> (unfold tokStep; rw [hop]; simp only [hx, hy]; rfl)

theorem tokStep_lineto (tokens : List PSTok) (i : Nat) (st : ParserState) (x y : ℚ)
    (hop : tokens.get? i = some (PSTok.word "lineto") ∨
      tokens.get? i = some (PSTok.word "l"))
    (hx : prevNum tokens i 2 = some x) (hy : prevNum tokens i 1 = some y) :
    (tokStep tokens i st).current_path =
      st.current_path ++ [⟨PathElemType.lineTo,
        [(transformCoordinates st x y).1, (transformCoordinates st x y).2]⟩] := by
  rcases hop with hop | hop <;> (unfold tokStep; rw [hop]; simp only [hx, hy]; rfl)

theorem tokStep_curveto (tokens : List PSTok) (i : Nat) (st : ParserState)
    (a b c d x y : ℚ)
    (hop : tokens.get? i = some (PSTok.word "curveto") ∨
      tokens.get? i = some (PSTok.word "c"))
    (h6 : prevNum tokens i 6 = some a) (h5 : prevNum tokens i 5 = some b)
    (h4 : prevNum tokens i 4 = some c) (h3 : prevNum tokens i 3 = some d)
    (h2 : prevNum tokens i 2 = some x) (h1 : prevNum tokens i 1 = some y) :
    (tokStep tokens i st).current_path =
      st.current_path ++ [⟨PathElemType.curveTo,
        [(transformCoordinates st a b).1, (transformCoordinates st a b).2,
         (transformCoordinates st c d).1, (transformCoordinates st c d).2,
         (transformCoordinates st x y).1, (transformCoordinates st x y).2]⟩] := by
  rcases hop with hop | hop <;>
    (unfold tokStep; rw [hop]; simp only [h6, h5, h4, h3, h2, h1]; rfl)

theorem run_mlc_stroke (x1 y1 x2 y2 x y a b c1 c2 c3 c4 c5 c6 : ℚ) :
    (parseContentTokens (bboxState x1 y1 x2 y2)
        [[PSTok.num x, PSTok.num y, PSTok.word "moveto",
          PSTok.num a, PSTok.num b, PSTok.word "lineto",
          PSTok.num c1, PSTok.num c2, PSTok.num c3, PSTok.num c4,
          PSTok.num c5, PSTok.num c6, PSTok.word "curveto",
          PSTok.word "stroke"]]).pages =
      [{ paths := [
          ⟨PathElemType.moveTo,
            [(bboxTransform x1 y1 x2 y2 x y).1, (bboxTransform x1 y1 x2 y2 x y).2]⟩,
          ⟨PathElemType.lineTo,
            [(bboxTransform x1 y1 x2 y2 a b).1, (bboxTransform x1 y1 x2 y2 a b).2]⟩,
          ⟨PathElemType.curveTo,
            [(bboxTransform x1 y1 x2 y2 c1 c2).1, (bboxTransform x1 y1 x2 y2 c1 c2).2,
             (bboxTransform x1 y1 x2 y2 c3 c4).1, (bboxTransform x1 y1 x2 y2 c3 c4).2,
             (bboxTransform x1 y1 x2 y2 c5 c6).1,
             (bboxTransform x1 y1 x2 y2 c5 c6).2]⟩] }] :=
  rfl

/-- Claim C1 (amended): for a document with bounding box `(x1,y1,x2,y2)`,
every coordinate pair supplied to `moveto`, `lineto` or `curveto` is stored
as `(v*s + ox, 842 - (w*s + oy))` with `s = min (595/(x2-x1)) (842/(y2-y1))`,
`ox = (595 - (x2-x1)*s)/2` and `oy = (842 - (y2-y1)*s)/2`: the paper size is
the fixed 595 × 842, not the A4 point values 595.276 × 841.890 of the claim,
and the centering offsets do not subtract the `x1*s`, `y1*s` terms of the
claim.  The conjuncts state: the closed form of the document's map; that no
operator alters the finalized transform; that the `moveto`, `lineto` and
`curveto` branches each append exactly the mapped coordinates wherever they
occur in any token stream; and that a run committing all three operators
stores exactly those mapped points in the page model. -/
theorem claim_C1_coordinate_transform (x1 y1 x2 y2 : ℚ)
    (h1 : 0 < x2 - x1) (h2 : 0 < y2 - y1) :
    (∀ x y : ℚ, bboxTransform x1 y1 x2 y2 x y =
      (x * min (595 / (x2 - x1)) (842 / (y2 - y1)) +
         (595 - (x2 - x1) * min (595 / (x2 - x1)) (842 / (y2 - y1))) / 2,
       842 - (y * min (595 / (x2 - x1)) (842 / (y2 - y1)) +
         (842 - (y2 - y1) * min (595 / (x2 - x1)) (842 / (y2 - y1))) / 2))) ∧
    (∀ (tokens : List PSTok) (i : Nat) (st : ParserState),
      (tokStep tokens i st).transform_scale = st.transform_scale ∧
      (tokStep tokens i st).transform_offset_x = st.transform_offset_x ∧
      (tokStep tokens i st).transform_offset_y = st.transform_offset_y ∧
      (tokStep tokens i st).transform_pdf_height = st.transform_pdf_height) ∧
    (∀ (tokens : List PSTok) (i : Nat) (st : ParserState) (x y : ℚ),
      st.transform_scale =
        (setupCoordinateTransform (bboxState x1 y1 x2 y2)).transform_scale →
      st.transform_offset_x =
        (setupCoordinateTransform (bboxState x1 y1 x2 y2)).transform_offset_x →
      st.transform_offset_y =
        (setupCoordinateTransform (bboxState x1 y1 x2 y2)).transform_offset_y →
      st.transform_pdf_height =
        (setupCoordinateTransform (bboxState x1 y1 x2 y2)).transform_pdf_height →
      (tokens.get? i = some (PSTok.word "moveto") ∨
        tokens.get? i = some (PSTok.word "m")) →
      prevNum tokens i 2 = some x → prevNum tokens i 1 = some y →
      (tokStep tokens i st).current_path = st.current_path ++
        [⟨PathElemType.moveTo,
          [(bboxTransform x1 y1 x2 y2 x y).1, (bboxTransform x1 y1 x2 y2 x y).2]⟩]) ∧
    (∀ (tokens : List PSTok) (i : Nat) (st : ParserState) (x y : ℚ),
      st.transform_scale =
        (setupCoordinateTransform (bboxState x1 y1 x2 y2)).transform_scale →
      st.transform_offset_x =
        (setupCoordinateTransform (bboxState x1 y1 x2 y2)).transform_offset_x →
      st.transform_offset_y =
        (setupCoordinateTransform (bboxState x1 y1 x2 y2)).transform_offset_y →
      st.transform_pdf_height =
        (setupCoordinateTransform (bboxState x1 y1 x2 y2)).transform_pdf_height →
      (tokens.get? i = some (PSTok.word "lineto") ∨
        tokens.get? i = some (PSTok.word "l")) →
      prevNum tokens i 2 = some x → prevNum tokens i 1 = some y →
      (tokStep tokens i st).current_path = st.current_path ++
        [⟨PathElemType.lineTo,
          [(bboxTransform x1 y1 x2 y2 x y).1, (bboxTransform x1 y1 x2 y2 x y).2]⟩]) ∧
    (∀ (tokens : List PSTok) (i : Nat) (st : ParserState) (a b c d x y : ℚ),
      st.transform_scale =
        (setupCoordinateTransform (bboxState x1 y1 x2 y2)).transform_scale →
      st.transform_offset_x =
        (setupCoordinateTransform (bboxState x1 y1 x2 y2)).transform_offset_x →
      st.transform_offset_y =
        (setupCoordinateTransform (bboxState x1 y1 x2 y2)).transform_offset_y →
      st.transform_pdf_height =
        (setupCoordinateTransform (bboxState x1 y1 x2 y2)).transform_pdf_height →
      (tokens.get? i = some (PSTok.word "curveto") ∨
        tokens.get? i = some (PSTok.word "c")) →
      prevNum tokens i 6 = some a → prevNum tokens i 5 = some b →
      prevNum tokens i 4 = some c → prevNum tokens i 3 = some d →
      prevNum tokens i 2 = some x → prevNum tokens i 1 = some y →
      (tokStep tokens i st).current_path = st.current_path ++
        [⟨PathElemType.curveTo,
          [(bboxTransform x1 y1 x2 y2 a b).1, (bboxTransform x1 y1 x2 y2 a b).2,
           (bboxTransform x1 y1 x2 y2 c d).1, (bboxTransform x1 y1 x2 y2 c d).2,
           (bboxTransform x1 y1 x2 y2 x y).1, (bboxTransform x1 y1 x2 y2 x y).2]⟩]) ∧
    (∀ x y a b c1 c2 c3 c4 c5 c6 : ℚ,
      ((parseContentTokens (bboxState x1 y1 x2 y2)
          [[PSTok.num x, PSTok.num y, PSTok.word "moveto",
            PSTok.num a, PSTok.num b, PSTok.word "lineto",
            PSTok.num c1, PSTok.num c2, PSTok.num c3, PSTok.num c4,
            PSTok.num c5, PSTok.num c6, PSTok.word "curveto",
            PSTok.word "stroke"]]).pages.headD {}).paths =
        [⟨PathElemType.moveTo,
           [(bboxTransform x1 y1 x2 y2 x y).1, (bboxTransform x1 y1 x2 y2 x y).2]⟩,
         ⟨PathElemType.lineTo,
           [(bboxTransform x1 y1 x2 y2 a b).1, (bboxTransform x1 y1 x2 y2 a b).2]⟩,
         ⟨PathElemType.curveTo,
           [(bboxTransform x1 y1 x2 y2 c1 c2).1, (bboxTransform x1 y1 x2 y2 c1 c2).2,
            (bboxTransform x1 y1 x2 y2 c3 c4).1, (bboxTransform x1 y1 x2 y2 c3 c4).2,
            (bboxTransform x1 y1 x2 y2 c5 c6).1,
            (bboxTransform x1 y1 x2 y2 c5 c6).2]⟩]) := by
  refine ⟨fun x y => rfl, tokStep_transform_invariant, ?_, ?_, ?_, ?_⟩
  · intro tokens i st x y hs hox hoy hh hop hx hy
    rw [tokStep_moveto tokens i st x y hop hx hy,
      transformCoordinates_congr hs hox hoy hh x y]
    rfl
  · intro tokens i st x y hs hox hoy hh hop hx hy
    rw [tokStep_lineto tokens i st x y hop hx hy,
      transformCoordinates_congr hs hox hoy hh x y]
    rfl
  · intro tokens i st a b c d x y hs hox hoy hh hop h6 h5 h4 h3 hx hy
    rw [tokStep_curveto tokens i st a b c d x y hop h6 h5 h4 h3 hx hy,
      transformCoordinates_congr hs hox hoy hh a b,
      transformCoordinates_congr hs hox hoy hh c d,
      transformCoordinates_congr hs hox hoy hh x y]
    rfl
  · intro x y a b c1 c2 c3 c4 c5 c6
    rw [run_mlc_stroke]
    rfl

/-- Witness for C1 at the bounding box (0,0,100,100): the closed-form map at
(100, 0), a `lineto` step at (7, 9), a `curveto` step at (1,2),(3,4),(5,6),
and the page model of a document using all three operators. -/
theorem claim_C1_witness :
    ((0:ℚ) < 100 - 0 ∧ (0:ℚ) < 100 - 0) ∧
    bboxTransform 0 0 100 100 100 0 =
      (100 * min (595 / ((100:ℚ) - 0)) (842 / (100 - 0)) +
         (595 - (100 - 0) * min (595 / ((100:ℚ) - 0)) (842 / (100 - 0))) / 2,
       842 - (0 * min (595 / ((100:ℚ) - 0)) (842 / (100 - 0)) +
         (842 - (100 - 0) * min (595 / ((100:ℚ) - 0)) (842 / (100 - 0))) / 2)) ∧
    (tokStep [PSTok.num 7, PSTok.num 9, PSTok.word "lineto"] 2
        (setupCoordinateTransform (bboxState 0 0 100 100))).current_path =
      [⟨PathElemType.lineTo,
        [(bboxTransform 0 0 100 100 7 9).1, (bboxTransform 0 0 100 100 7 9).2]⟩] ∧
    (tokStep [PSTok.num 1, PSTok.num 2, PSTok.num 3, PSTok.num 4, PSTok.num 5,
        PSTok.num 6, PSTok.word "curveto"] 6
        (setupCoordinateTransform (bboxState 0 0 100 100))).current_path =
      [⟨PathElemType.curveTo,
        [(bboxTransform 0 0 100 100 1 2).1, (bboxTransform 0 0 100 100 1 2).2,
         (bboxTransform 0 0 100 100 3 4).1, (bboxTransform 0 0 100 100 3 4).2,
         (bboxTransform 0 0 100 100 5 6).1, (bboxTransform 0 0 100 100 5 6).2]⟩] ∧
    ((parseContentTokens (bboxState 0 0 100 100)
        [[PSTok.num 100, PSTok.num 0, PSTok.word "moveto",
          PSTok.num 7, PSTok.num 9, PSTok.word "lineto",
          PSTok.num 1, PSTok.num 2, PSTok.num 3, PSTok.num 4,
          PSTok.num 5, PSTok.num 6, PSTok.word "curveto",
          PSTok.word "stroke"]]).pages.headD {}).paths =
      [⟨PathElemType.moveTo,
         [(bboxTransform 0 0 100 100 100 0).1, (bboxTransform 0 0 100 100 100 0).2]⟩,
       ⟨PathElemType.lineTo,
         [(bboxTransform 0 0 100 100 7 9).1, (bboxTransform 0 0 100 100 7 9).2]⟩,
       ⟨PathElemType.curveTo,
         [(bboxTransform 0 0 100 100 1 2).1, (bboxTransform 0 0 100 100 1 2).2,
          (bboxTransform 0 0 100 100 3 4).1, (bboxTransform 0 0 100 100 3 4).2,
          (bboxTransform 0 0 100 100 5 6).1, (bboxTransform 0 0 100 100 5 6).2]⟩] := by
  have h := claim_C1_coordinate_transform 0 0 100 100 (by norm_num) (by norm_num)
  refine ⟨⟨by norm_num, by norm_num⟩, h.1 100 0, ?_, ?_,
    h.2.2.2.2.2 100 0 7 9 1 2 3 4 5 6⟩
  · have hl := h.2.2.2.1 [PSTok.num 7, PSTok.num 9, PSTok.word "lineto"] 2
      (setupCoordinateTransform (bboxState 0 0 100 100)) 7 9
      rfl rfl rfl rfl (Or.inl rfl) rfl rfl
    simpa using hl
  · have hc := h.2.2.2.2.1 [PSTok.num 1, PSTok.num 2, PSTok.num 3, PSTok.num 4,
      PSTok.num 5, PSTok.num 6, PSTok.word "curveto"] 6
      (setupCoordinateTransform (bboxState 0 0 100 100)) 1 2 3 4 5 6
      rfl rfl rfl rfl (Or.inl rfl) rfl rfl rfl rfl rfl rfl
    simpa using hc

/-- Modelled from the spec (§4.5, claim C1): the claimed coordinate map,
with paper `W × H = 595.276 × 841.890` and offsets that subtract `x1*scale`
and `y1*scale`. -/
def specCoordinateMap (x1 y1 x2 y2 xs ys : ℚ) : ℚ × ℚ :=
  let W : ℚ := 595276 / 1000
  let H : ℚ := 841890 / 1000
  let scale := min (W / (x2 - x1)) (H / (y2 - y1))
  let ox := (W - (x2 - x1) * scale) / 2 - x1 * scale
  let oy := (H - (y2 - y1) * scale) / 2 - y1 * scale
  (xs * scale + ox, H - (ys * scale + oy))

/-- Counterexample to C1 as stated: with bounding box (0,0,100,100) on the
default paper, the point (100, 0) is stored as x-coordinate 595 (the code
scales to a 595 × 842 page), while the claim's formula yields 595.276. -/
theorem claim_C1_counterexample :
    ((parseContentTokens (bboxState 0 0 100 100)
        [[PSTok.num 100, PSTok.num 0, PSTok.word "moveto",
          PSTok.word "stroke"]]).pages.headD {}).paths ≠
      [⟨PathElemType.moveTo,
        [(specCoordinateMap 0 0 100 100 100 0).1,
         (specCoordinateMap 0 0 100 100 100 0).2]⟩] := by
  rw [run_moveto_stroke]
  simp only [List.headD_cons, ne_eq, List.cons.injEq, and_true, PathElement.mk.injEq,
    true_and, specCoordinateMap, transformCoordinates, setupCoordinateTransform, bboxState]
  norm_num [min_def]

/-! ## Content-stream operator lines (claims C5, C6, C8) -/

/-- Classify an emitted content line by its path operator: coordinate lines
ending in ` m` / ` l` / ` c`, and the one-character operator lines `h`, `S`
and `f`. -/
def opOf (l : List Char) : Option String :=
  match l.reverse with
  | 'm' :: ' ' :: _ => some "m"
  | 'l' :: ' ' :: _ => some "l"
  | 'c' :: ' ' :: _ => some "c"
  | ['h'] => some "h"
  | ['S'] => some "S"
  | ['f'] => some "f"
  | _ => none

/-- The sequence of path operators appearing in a list of content lines. -/
def opLines (lines : List (List Char)) : List String :=
  lines.filterMap opOf

theorem opOf_append_m (xs : List Char) : opOf (xs ++ sl " m") = some "m" := by
  unfold opOf
  rw [List.reverse_append]
  rfl

theorem opOf_append_l (xs : List Char) : opOf (xs ++ sl " l") = some "l" := by
  unfold opOf
  rw [List.reverse_append]
  rfl

theorem opOf_append_c (xs : List Char) : opOf (xs ++ sl " c") = some "c" := by
  unfold opOf
  rw [List.reverse_append]
  rfl

theorem opOf_h : opOf (sl "h") = some "h" := rfl

theorem opOf_S : opOf (sl "S") = some "S" := rfl

theorem opOf_Q : opOf (sl "Q") = none := rfl

theorem opOf_eq_f {l : List Char} (h : opOf l = some "f") : l = ['f'] := by
  unfold opOf at h
  split at h
  · exact absurd h (by decide)
  · exact absurd h (by decide)
  · exact absurd h (by decide)
  · exact absurd h (by decide)
  · exact absurd h (by decide)
  · rename_i heq
    have := congrArg List.reverse heq
    simpa using this
  · exact absurd h (by simp)

theorem append_tail_ne_f {a b : List Char} (h2 : 2 ≤ b.length) :
    a ++ b ≠ ['f'] := by
  intro hEq
  have hlen := congrArg List.length hEq
  simp only [List.length_append, List.length_cons, List.length_nil] at hlen
  omega

theorem opLines_no_f (lines : List (List Char))
    (h : ∀ l ∈ lines, l ≠ ['f']) : ¬ "f" ∈ opLines lines := by
  intro hf
  simp only [opLines, List.mem_filterMap] at hf
  obtain ⟨l, hl, hOp⟩ := hf
  exact h _ hl (opOf_eq_f hOp)

set_option maxHeartbeats 1000000 in
theorem pathStep_ne_f (acc : List (List Char) × Bool) (e : PathElement)
    (hacc : ∀ l ∈ acc.1, l ≠ ['f']) :
    ∀ l ∈ (pathStep acc e).1, l ≠ ['f'] := by
  intro l hl
  obtain ⟨ty, pts⟩ := e
  cases ty
  case moveTo =>
      dsimp only [pathStep] at hl
      by_cases h2 : 2 ≤ pts.length
      · rw [if_pos h2] at hl
        rcases List.mem_append.mp hl with h3 | h3
        · by_cases hb : acc.2
          · rw [if_pos hb] at h3
            rcases List.mem_append.mp h3 with h4 | h4
            · exact hacc l h4
            · simp only [List.mem_singleton] at h4; subst h4; decide
          · rw [if_neg hb] at h3; exact hacc l h3
        · simp only [List.mem_singleton] at h3
          subst h3
          exact append_tail_ne_f (b := sl " m") (by decide)
      · rw [if_neg h2] at hl; exact hacc l hl
  case lineTo =>
      dsimp only [pathStep] at hl
      by_cases h2 : 2 ≤ pts.length
      · rw [if_pos h2] at hl
        rcases List.mem_append.mp hl with h3 | h3
        · exact hacc l h3
        · simp only [List.mem_singleton] at h3
          subst h3
          exact append_tail_ne_f (b := sl " l") (by decide)
      · rw [if_neg h2] at hl; exact hacc l hl
  case curveTo =>
      dsimp only [pathStep] at hl
      by_cases h2 : 6 ≤ pts.length
      · rw [if_pos h2] at hl
        rcases List.mem_append.mp hl with h3 | h3
        · exact hacc l h3
        · simp only [List.mem_singleton] at h3
          subst h3
          exact append_tail_ne_f (b := sl " c") (by decide)
      · rw [if_neg h2] at hl; exact hacc l hl
  case closePath =>
      dsimp only [pathStep] at hl
      rcases List.mem_append.mp hl with h3 | h3
      · exact hacc l h3
      · simp only [List.mem_singleton] at h3; subst h3; decide

theorem foldl_pathStep_ne_f (paths : List PathElement)
    (acc : List (List Char) × Bool)
    (hacc : ∀ l ∈ acc.1, l ≠ ['f']) :
    ∀ l ∈ (paths.foldl pathStep acc).1, l ≠ ['f'] := by
  induction paths generalizing acc with
  | nil => exact hacc
  | cons e rest ih => exact ih _ (pathStep_ne_f acc e hacc)

theorem genContentLines_ne_f (page : Page) :
    ∀ l ∈ genContentLines page, l ≠ ['f'] := by
  intro l hl
  unfold genContentLines at hl
  rcases List.mem_append.mp hl with h1 | h1
  swap
  · simp only [List.mem_singleton] at h1; subst h1; decide
  rcases List.mem_append.mp h1 with h2 | h2
  swap
  · by_cases ht : page.text_elements = []
    · rw [if_pos ht] at h2; simp at h2
    · rw [if_neg ht] at h2
      rcases List.mem_append.mp h2 with h4 | h4
      swap
      · simp only [List.mem_singleton] at h4; subst h4; decide
      rcases List.mem_append.mp h4 with h5 | h5
      · fin_cases h5 <;> decide
      · simp only [List.mem_flatten, List.mem_map] at h5
        obtain ⟨ls, ⟨t, ht2, rfl⟩, hmem⟩ := h5
        fin_cases hmem
        · exact append_tail_ne_f (b := sl " rg") (by decide)
        · exact append_tail_ne_f (b := sl " Tm") (by decide)
        · exact append_tail_ne_f (b := sl ") Tj") (by decide)
  rcases List.mem_append.mp h2 with h3 | h3
  · refine foldl_pathStep_ne_f page.paths (preambleLines, false) ?_ l h3
    intro lp hlp
    fin_cases hlp <;> decide
  · by_cases hb : (page.paths.foldl pathStep (preambleLines, false)).2
    · rw [if_pos hb] at h3
      simp only [List.mem_singleton] at h3; subst h3; decide
    · rw [if_neg hb] at h3; simp at h3

/-- The coordinate transform of a parser with the default (A4) bounding box. -/
def defaultTransform (x y : ℚ) : ℚ × ℚ :=
  transformCoordinates (setupCoordinateTransform {}) x y

/-- The triangle input of scenario S4:
`0 0 moveto 100 0 lineto 50 86 lineto closepath fill showpage`. -/
def triangleTokens : List (List PSTok) :=
  [[PSTok.num 0, PSTok.num 0, PSTok.word "moveto",
    PSTok.num 100, PSTok.num 0, PSTok.word "lineto",
    PSTok.num 50, PSTok.num 86, PSTok.word "lineto",
    PSTok.word "closepath", PSTok.word "fill", PSTok.word "showpage"]]

theorem run_triangle :
    (parseContentTokens {} triangleTokens).pages =
      [{ paths := [
          ⟨PathElemType.moveTo, [(defaultTransform 0 0).1, (defaultTransform 0 0).2]⟩,
          ⟨PathElemType.lineTo, [(defaultTransform 100 0).1, (defaultTransform 100 0).2]⟩,
          ⟨PathElemType.lineTo, [(defaultTransform 50 86).1, (defaultTransform 50 86).2]⟩,
          ⟨PathElemType.closePath, []⟩] }, {}] :=
  rfl

theorem opLines_preamble :
    List.filterMap opOf preambleLines = ["m", "l", "l", "l", "h", "S"] := by decide

theorem triangle_opLines :
    opLines (genContentLines ((parseContentTokens {} triangleTokens).pages.headD {})) =
      ["m", "l", "l", "l", "h", "S", "m", "l", "l", "h", "S"] := by
  have hpage : (parseContentTokens {} triangleTokens).pages.headD {} =
      { paths := [
          ⟨PathElemType.moveTo, [(defaultTransform 0 0).1, (defaultTransform 0 0).2]⟩,
          ⟨PathElemType.lineTo, [(defaultTransform 100 0).1, (defaultTransform 100 0).2]⟩,
          ⟨PathElemType.lineTo, [(defaultTransform 50 86).1, (defaultTransform 50 86).2]⟩,
          ⟨PathElemType.closePath, []⟩] } := by
    rw [run_triangle]; rfl
  rw [hpage]
  unfold genContentLines
  simp only [List.foldl_cons, List.foldl_nil]
  dsimp only [pathStep]
  simp only [List.length_cons, List.length_nil, Nat.le_refl, if_true, if_pos,
    Nat.reduceLeDiff, reduceIte]
  simp only [opLines, List.filterMap_append, opLines_preamble]
  simp only [List.filterMap_cons, List.filterMap_nil, opOf_append_m, opOf_append_l,
    opOf_h, opOf_S, opOf_Q]
  rfl

/-- Claim C5 (amended): the page model records no paint kind, and
`GeneratePageContent` terminates every batch with the stroke operator `S`:
no content stream ever contains an `f` operator line, and the triangle input
`0 0 moveto 100 0 lineto 50 86 lineto closepath fill showpage` yields the
operator lines `m l l h S` (after the debug rectangle's `m l l l h S`)
rather than the claimed `m l l h f`. -/
theorem claim_C5_fill_terminator :
    (∀ page : Page, ¬ "f" ∈ opLines (genContentLines page)) ∧
    opLines (genContentLines ((parseContentTokens {} triangleTokens).pages.headD {})) =
      ["m", "l", "l", "l", "h", "S", "m", "l", "l", "h", "S"] :=
  ⟨fun page => opLines_no_f _ (genContentLines_ne_f page), triangle_opLines⟩

/-- Counterexample to C5 as stated: the content stream generated for the
triangle-fill input contains no `f` operator at all, so it cannot contain
`m l l h f` in that order. -/
theorem claim_C5_counterexample :
    ¬ List.Sublist ["m", "l", "l", "h", "f"]
      (opLines (genContentLines ((parseContentTokens {} triangleTokens).pages.headD {}))) := by
  intro hsub
  have hf : "f" ∈ opLines (genContentLines
      ((parseContentTokens {} triangleTokens).pages.headD {})) :=
    hsub.subset (by simp)
  rw [triangle_opLines] at hf
  exact absurd hf (by decide)

/-- Claim C6 evaluated on the code at the failing input: an input with no
operator tokens yields one page, but its content stream contains the debug
test-rectangle drawing operators (`100 100 m` … `S`) between the `q` and the
`Q`, so the stream is not empty as the claim requires. -/
theorem claim_C6_empty_input :
    (parseContentTokens {} []).pages.length = 1 ∧
    sl "100 100 m" ∈ genContentLines ((parseContentTokens {} []).pages.headD {}) ∧
    opLines (genContentLines ((parseContentTokens {} []).pages.headD {})) =
      ["m", "l", "l", "l", "h", "S"] :=
  ⟨rfl, by decide, by decide⟩

/-! ## lineto without a current point (claim C8) -/

/-- Claim C8 (amended): a `lineto` with numeric arguments executed when no
`MoveTo` has been recorded appends a `LineTo` element as-is — the
interpreter does not substitute a `MoveTo`. -/
theorem claim_C8_lineto_no_default (st : ParserState) (x y : ℚ)
    (hempty : st.current_path = []) :
    (tokStep [PSTok.num x, PSTok.num y, PSTok.word "lineto"] 2 st).current_path =
      [⟨PathElemType.lineTo,
        [(transformCoordinates st x y).1, (transformCoordinates st x y).2]⟩] := by
  have hstep : (tokStep [PSTok.num x, PSTok.num y, PSTok.word "lineto"] 2 st).current_path =
      st.current_path ++ [⟨PathElemType.lineTo,
        [(transformCoordinates st x y).1, (transformCoordinates st x y).2]⟩] := rfl
  rw [hstep, hempty, List.nil_append]

/-- Witness for C8 at `10 10 lineto` in the initial state. -/
theorem claim_C8_witness :
    ({} : ParserState).current_path = [] ∧
    (tokStep [PSTok.num 10, PSTok.num 10, PSTok.word "lineto"] 2 {}).current_path =
      [⟨PathElemType.lineTo,
        [(transformCoordinates {} 10 10).1, (transformCoordinates {} 10 10).2]⟩] :=
  ⟨rfl, claim_C8_lineto_no_default {} 10 10 rfl⟩

/-- Counterexample to C8 as stated: for `10 10 lineto` in the initial state
the recorded element is a `LineTo`, not the `MoveTo` the claim promises. -/
theorem claim_C8_counterexample :
    ((tokStep [PSTok.num 10, PSTok.num 10, PSTok.word "lineto"] 2
        ({} : ParserState)).current_path.map (fun e => e.type)) =
      [PathElemType.lineTo] ∧
    PathElemType.lineTo ≠ PathElemType.moveTo :=
  ⟨rfl, by decide⟩

end PDFLib
